import Mathlib

/-!
Verification development for the FinDashPro trading core.

Each Python component relevant to the verified properties is shallowly
embedded as a pure Lean function over explicit state:

* `PaperBrokerAdapter.place_order`  — src/fdp/trading/broker_adapter_enhanced.py
* `AdaptiveTokenBucketRateLimiter.acquire`, `checkBudgetAtomic`
                                     — src/fdp/core/rate_limiter.py
* `MLCircuitBreaker.call`           — src/fdp/core/circuit_breaker.py
* `RiskManager.validate_order`      — src/fdp/trading/risk_manager.py
* `KellyPositionSizer.calculate_position_size`
                                     — src/fdp/trading/position_sizer.py
* `FinDashProOrchestrator.handleWorkItem`, `processTickerAcquire`
                                     — src/fdp/core/orchestrator.py

Modelling conventions: Python floats are embedded as exact rationals (no
property below depends on binary rounding); wall-clock timestamps are
explicit `ℚ` parameters; `asyncio.sleep` is ideal (the call resumes exactly
at `now + wait`); redis hashes/keys owned by a component are carried in its
state record; a Python statement that raises is embedded as a result
constructor, in particular an unguarded division by zero is made explicit
as a `zeroDivision` result.
-/

/-! ## Broker adapter (src/fdp/trading/broker_adapter_enhanced.py) -/

/-- EnhancedOrder, the order payload handed to `place_order`
(broker_adapter_enhanced.py lines 10-24).  `metadata` and the mutable
`status` field play no role in the verified properties and are omitted. -/
structure EnhancedOrder where
  symbol : String
  action : String
  quantity : ℚ
  orderType : String
  limitPrice : ℚ
  idempotencyKey : String
deriving Repr, DecidableEq

/-- A paper position as stored in `self.positions[symbol]`. -/
structure PaperPosition where
  quantity : ℚ
  entryPrice : ℚ
  marketValue : ℚ
deriving Repr, DecidableEq

/-- State owned by `PaperBrokerAdapter`: the simulated cash balance, the
`positions` dict, the `orders` dict, and the set of keys present in the
redis instance the adapter consults for its idempotency check (the adapter
itself never writes to it). -/
structure PaperBrokerState where
  cash : ℚ
  positions : List (String × PaperPosition)
  orders : List (String × EnhancedOrder)
  redisKeys : List String
deriving Repr, DecidableEq

/-- Outcome of `place_order`: the returned order-id string, or the
`Exception("Insufficient funds")` raised on an unaffordable buy. -/
inductive PlaceOrderResult where
  | ok (orderId : String)
  | insufficientFunds
deriving Repr, DecidableEq

/-- Insert-or-replace into an association list, as Python dict assignment
`d[k] = v` behaves. -/
def alistInsert (l : List (String × α)) (k : String) (v : α) : List (String × α) :=
  match l with
  | [] => [(k, v)]
  | (k0, v0) :: rest =>
      if k0 = k then (k, v) :: rest else (k0, v0) :: alistInsert rest k v

/-- Removal from an association list, as Python `del d[k]` (no-op when the
key is absent, matching the guarded `if order.symbol in self.positions`). -/
def alistErase (l : List (String × α)) (k : String) : List (String × α) :=
  match l with
  | [] => []
  | (k0, v0) :: rest =>
      if k0 = k then rest else (k0, v0) :: alistErase rest k

/-- `PaperBrokerAdapter.place_order` (broker_adapter_enhanced.py lines
81-124).  `loopTime` is `int(asyncio.get_event_loop().time())` at the
moment of execution.  Control flow, in source order: the idempotency check
against redis (a non-empty key that exists short-circuits to the constant
string `duplicate_suppressed`), the mock price (`order.limit_price or
100.0`, so a zero limit price falls back to 100.0), the buy-side funds
check, then the fill: a buy debits cash and overwrites the symbol's
position, any non-buy action credits cash and deletes the position.  No
branch writes the idempotency key anywhere. -/
def PaperBrokerAdapter.place_order (st : PaperBrokerState) (o : EnhancedOrder)
    (loopTime : Int) : PlaceOrderResult × PaperBrokerState :=
  if o.idempotencyKey ≠ "" ∧ o.idempotencyKey ∈ st.redisKeys then
    (.ok ("duplicate_suppressed"), st)
  else
    let price := if o.limitPrice = 0 then 100 else o.limitPrice
    let cost := o.quantity * price
    if o.action = "buy" ∧ cost > st.cash then
      (.insufficientFunds, st)
    else
      let orderId := "paper_" ++ o.symbol ++ "_" ++ toString loopTime
      if o.action = "buy" then
        (.ok orderId,
          { st with
              cash := st.cash - cost,
              positions := alistInsert st.positions o.symbol ⟨o.quantity, price, cost⟩,
              orders := (orderId, o) :: st.orders })
      else
        (.ok orderId,
          { st with
              cash := st.cash + cost,
              positions := alistErase st.positions o.symbol,
              orders := (orderId, o) :: st.orders })

/-! ## Rate limiter (src/fdp/core/rate_limiter.py) -/

/-- The redis hash `rate_limit:{provider}:{key}` holding the token bucket
for one provider/key pair. -/
structure Bucket where
  tokens : ℚ
  lastRefill : ℚ
deriving Repr, DecidableEq

/-- State of `AdaptiveTokenBucketRateLimiter` restricted to one
provider/key bucket (every claim below is per-bucket): the bucket hash (or
`none` before the first acquire), the redis counter `budget:daily_spent`,
the configured `budget`, the `adaptive_mode` flag (`True` after
`__init__`), and the latencies in `performance_window[provider]`. -/
structure RateLimiterState where
  bucket : Option Bucket
  dailySpent : ℚ
  budget : ℚ
  adaptiveMode : Bool
  perfLatencies : List ℚ
deriving Repr, DecidableEq

/-- Result of one `acquire` call: success, the raised
`BudgetExceededError`, or the unguarded Python `ZeroDivisionError` from
`(1.0 - new_tokens) / adaptive_rate` when `adaptive_rate` is zero. -/
inductive AcquireOutcome where
  | ok
  | budgetExceeded
  | zeroDivision
deriving Repr, DecidableEq

/-- `AdaptiveTokenBucketRateLimiter._calculate_adaptive_rate` (lines
54-65).  The Python `int(...)` truncation of `base_rate * 1.2` and
`base_rate * 0.8` is embedded as the rational floor (the rates in use are
non-negative, where truncation and floor agree). -/
def calculateAdaptiveRate (adaptiveMode : Bool) (perf : List ℚ) (baseRate : Int) : Int :=
  if !adaptiveMode then baseRate
  else if perf.length < 5 then baseRate
  else
    let avgLatency := perf.sum / (perf.length : ℚ)
    if avgLatency < 1/2 then Int.floor ((baseRate : ℚ) * (6/5))
    else if avgLatency > 2 then Int.floor ((baseRate : ℚ) * (4/5))
    else baseRate

/-- `AdaptiveTokenBucketRateLimiter._check_budget_atomic` (lines 76-82):
the lua script returns `tonumber(spent) < budget` (strict). -/
def checkBudgetAtomic (st : RateLimiterState) : Bool :=
  st.dailySpent < st.budget

/-- `AdaptiveTokenBucketRateLimiter.acquire` (lines 19-52) for one
provider/key pair.  Returns the outcome, the new state and the time at
which the call returns (`now` itself, or `now + wait_time` when the call
slept).  Source control flow: budget gate first; read the bucket,
defaulting a missing hash to `tokens = limit_per_min, last_refill = now`
(a stored falsy `last_refill`, i.e. `0`, also defaults to `now`); refill
`new_tokens = min(adaptive_rate, tokens + elapsed * adaptive_rate)`; if
short of one token, sleep `(1 - new_tokens) / adaptive_rate * 60` (a zero
adaptive rate makes this division raise) and recompute
`new_tokens = min(1.0, elapsed * adaptive_rate)` from the elapsed time
alone; finally store `tokens = new_tokens - 1, last_refill = now`. -/
def AdaptiveTokenBucketRateLimiter.acquire (st : RateLimiterState) (now : ℚ)
    (limitPerMin : Int) : AcquireOutcome × RateLimiterState × ℚ :=
  if !checkBudgetAtomic st then (.budgetExceeded, st, now)
  else
    let tokens : ℚ :=
      match st.bucket with
      | none => (limitPerMin : ℚ)
      | some b => b.tokens
    let lastRefill : ℚ :=
      match st.bucket with
      | none => now
      | some b => if b.lastRefill = 0 then now else b.lastRefill
    let elapsed := (now - lastRefill) / 60
    let adaptiveRate := calculateAdaptiveRate st.adaptiveMode st.perfLatencies limitPerMin
    let newTokens := min (adaptiveRate : ℚ) (tokens + elapsed * (adaptiveRate : ℚ))
    if newTokens < 1 then
      if adaptiveRate = 0 then (.zeroDivision, st, now)
      else
        let waitTime := (1 - newTokens) / (adaptiveRate : ℚ) * 60
        let now2 := now + waitTime
        let elapsed2 := (now2 - lastRefill) / 60
        let newTokens2 := min 1 (elapsed2 * (adaptiveRate : ℚ))
        (.ok, { st with bucket := some ⟨newTokens2 - 1, now2⟩ }, now2)
    else
      (.ok, { st with bucket := some ⟨newTokens - 1, now⟩ }, now)

/-- Iterated acquires against the same bucket, all issued at the same
timestamp `now` (the shape of a call sequence with no refill time elapsed
between calls). -/
def acquireSeq (st : RateLimiterState) (now : ℚ) (limitPerMin : Int) : Nat → RateLimiterState
  | 0 => st
  | n + 1 =>
      (AdaptiveTokenBucketRateLimiter.acquire (acquireSeq st now limitPerMin n)
        now limitPerMin).2.1

/-- The stored token count of the bucket (0 when the bucket hash does not
exist yet). -/
def bucketTokens (st : RateLimiterState) : ℚ :=
  match st.bucket with
  | none => 0
  | some b => b.tokens

/-- A list of acquire calls (timestamp, limit), threaded through the
state; returns the outcomes in order and the final state. -/
def acquireMany (st : RateLimiterState) : List (ℚ × Int) → List AcquireOutcome × RateLimiterState
  | [] => ([], st)
  | (now, limit) :: rest =>
      let r := AdaptiveTokenBucketRateLimiter.acquire st now limit
      let (outs, fin) := acquireMany r.2.1 rest
      (r.1 :: outs, fin)

/-- The admission-control call in
`FinDashProOrchestrator.process_ticker_safe` (orchestrator.py line 287):
`await self.rate_limiter.acquire("processing", f"ticker:{ticker}", 0)` —
the limit argument is the literal `0` for every ticker. -/
def FinDashProOrchestrator.processTickerAcquire (st : RateLimiterState) (now : ℚ) :
    AcquireOutcome × RateLimiterState × ℚ :=
  AdaptiveTokenBucketRateLimiter.acquire st now 0

/-! ## Circuit breaker (src/fdp/core/circuit_breaker.py) -/

/-- The three values of `self.states[provider]`; the Python strings
"closed", "half-open", "open" become `closed`, `halfOpen`, `opened`
(`open` is a Lean keyword). -/
inductive CircuitPhase where
  | closed
  | halfOpen
  | opened
deriving Repr, DecidableEq

/-- `MLCircuitBreaker.__init__` configuration. -/
structure CircuitConfig where
  failureThreshold : Nat
  baseRecoveryTimeout : ℚ
deriving Repr, DecidableEq

/-- Per-provider state of `MLCircuitBreaker`: `failures`, `last_failure`,
`states`, `success_half_open`, `failure_times`.  The defaultdict defaults
give the initial state `CircuitState.init`. -/
structure CircuitState where
  failures : Nat
  lastFailure : ℚ
  state : CircuitPhase
  successHalfOpen : Nat
  failureTimes : List ℚ
deriving Repr, DecidableEq

/-- The per-provider state before any call: `failures = 0`,
`last_failure = 0.0`, state "closed", no half-open successes, no recorded
failure times. -/
def CircuitState.init : CircuitState :=
  ⟨0, 0, .closed, 0, []⟩

/-- `np.diff` on the recorded failure timestamps. -/
def adjacentDiffs : List ℚ → List ℚ
  | a :: b :: rest => (b - a) :: adjacentDiffs (b :: rest)
  | _ => []

/-- `MLCircuitBreaker._calculate_ml_recovery_timeout` (circuit_breaker.py
lines 53-62).  The scipy draw `expon.rvs(scale=1/lambda_est)` is a
non-negative random real; it enters the computed timeout only through
`predicted_next_fail`, which the embedding takes as the explicit
nondeterminism parameter `sample`.  With fewer than 2 inter-failure
intervals the fixed `base_recovery_timeout` is used; otherwise the result
is `base * (1 + sample / 100)` clamped to `[60, 600]`. -/
def calculateMlRecoveryTimeout (cfg : CircuitConfig) (failureTimes : List ℚ)
    (sample : ℚ) : ℚ :=
  if failureTimes = [] then cfg.baseRecoveryTimeout
  else
    let intervals := adjacentDiffs failureTimes
    if intervals.length < 2 then cfg.baseRecoveryTimeout
    else max 60 (min 600 (cfg.baseRecoveryTimeout * (1 + sample / 100)))

/-- Behaviour of the wrapped `func` when it is actually awaited. -/
inductive CallOutcome where
  | succeeds
  | fails
deriving Repr, DecidableEq

/-- What `MLCircuitBreaker.call` does: return the function's result,
re-raise the function's exception, or raise `CircuitOpenError` without
invoking the function. -/
inductive CallResult where
  | ok
  | raised
  | circuitOpenError
deriving Repr, DecidableEq

/-- `MLCircuitBreaker.call` (circuit_breaker.py lines 21-51) for one
provider.  `state0` is the local variable `state` read at entry — the
success branch compares this *entry* snapshot, so the call that performs
the open → half-open transition does not count its own success toward
`success_half_open`.  Fast-fail happens when the entry state is open and
`now - last_failure` has not strictly exceeded the adaptive timeout; in
that case `func` is never invoked, which is why the result is independent
of `outcome` there.  On failure the counters are updated first and the
state becomes open exactly when `failures` reaches the threshold — this
is the only reopening rule, including from half-open. -/
def MLCircuitBreaker.call (cfg : CircuitConfig) (st : CircuitState) (now : ℚ)
    (sample : ℚ) (outcome : CallOutcome) : CallResult × CircuitState :=
  let state0 := st.state
  if state0 = .opened ∧ ¬ (now - st.lastFailure > calculateMlRecoveryTimeout cfg st.failureTimes sample) then
    (.circuitOpenError, st)
  else
    let st1 := if state0 = .opened then { st with state := .halfOpen, successHalfOpen := 0 } else st
    match outcome with
    | .succeeds =>
        let st2 :=
          if state0 = .halfOpen then
            let stInc := { st1 with successHalfOpen := st1.successHalfOpen + 1 }
            if stInc.successHalfOpen ≥ 2 then
              { stInc with state := .closed, failures := 0, failureTimes := [] }
            else stInc
          else st1
        (.ok, { st2 with failures := 0 })
    | .fails =>
        let st2 := { st1 with
          failures := st1.failures + 1,
          lastFailure := now,
          failureTimes := st1.failureTimes ++ [now] }
        if st2.failures ≥ cfg.failureThreshold then
          (.raised, { st2 with state := .opened })
        else
          (.raised, st2)

/-- A sequence of calls whose wrapped function fails every time, issued at
the given timestamps (the `sample` parameter is irrelevant on these paths
and fixed to 0). -/
def callFailSeq (cfg : CircuitConfig) (st : CircuitState) : List ℚ → CircuitState
  | [] => st
  | t :: rest => callFailSeq cfg (MLCircuitBreaker.call cfg st t 0 .fails).2 rest

/-! ## RiskManager (src/fdp/trading/risk_manager.py) -/

/-- The dict returned by `RiskManager.validate_order`.  The Python reason
string interpolates the computed percentages; the embedding keeps the
fixed prefix of the violation message, which is what identifies the
violated rule. -/
structure RiskValidation where
  allowed : Bool
  reason : String
deriving Repr, DecidableEq

/-- `RiskManager.validate_order` (risk_manager.py lines 14-34).
`maxPositionPercent` is `config.max_position_percent`.  The only check
performed is the position-size check, and it divides by the hard-coded
mock `portfolio_value = 100000`, not by the account's value.  The daily
loss check is a TODO in the source and the position-count limit does not
appear at all; `allowed` is simply "no violation collected". -/
def RiskManager.validate_order (maxPositionPercent : ℚ) (o : EnhancedOrder) :
    RiskValidation :=
  let positionValue := o.quantity * o.limitPrice
  let portfolioValue : ℚ := 100000
  let positionPercent := positionValue / portfolioValue * 100
  let violations : List String :=
    if positionPercent > maxPositionPercent then ["Position size exceeds limit"] else []
  { allowed := violations.isEmpty,
    reason := if violations.isEmpty then "OK" else String.intercalate ("; ") violations }

/-- The risk environment the specification quantifies over: the account
value, the number of open positions with its configured maximum, and the
daily realized loss with its configured maximum.  `validate_order` in the
source receives none of this. -/
structure RiskEnv where
  accountValue : ℚ
  openPositionsCount : Nat
  maxOpenPositions : Nat
  dailyRealizedLoss : ℚ
  maxDailyLoss : ℚ
deriving Repr, DecidableEq

/-- The validation the claim describes, written from the spec's words (for
comparison with `RiskManager.validate_order` above): allowed iff position
value is within `maxPositionFrac` of the account value, the open-position
count is within its maximum, and the daily realized loss is within its
maximum. -/
def validateOrderSpecModel (maxPositionFrac : ℚ) (env : RiskEnv) (o : EnhancedOrder) : Bool :=
  (o.quantity * o.limitPrice ≤ maxPositionFrac * env.accountValue) &&
  (env.openPositionsCount ≤ env.maxOpenPositions) &&
  (env.dailyRealizedLoss ≤ env.maxDailyLoss)

/-! ## KellyPositionSizer (src/fdp/trading/position_sizer.py) -/

/-- The account summary dict: `cash`, and the optional `portfolio_value`
key (`account_summary.get('portfolio_value', cash)` defaults it to cash). -/
structure AccountSummary where
  cash : ℚ
  portfolioValue : Option ℚ
deriving Repr, DecidableEq

/-- `KellyPositionSizer.calculate_position_size` (position_sizer.py lines
10-57).  `kellyFraction` is the constructor's `kelly_fraction`.
Degenerate `winProb` or a non-positive `winLossRat` give 0; the raw Kelly
fraction `p - (1-p)/b` is scaled by `kellyFraction`, clamped by `np.clip`
to `[-0.25, 0.25]`, multiplied by the portfolio value, capped by available
cash, and suppressed to 0 below the $100 minimum (or when cash ≤ 0). -/
def KellyPositionSizer.calculate_position_size (kellyFraction : ℚ) (winProb : ℚ)
    (winLossRat : ℚ) (account : AccountSummary) : ℚ :=
  if ¬ (0 < winProb ∧ winProb < 1) then 0
  else if winLossRat ≤ 0 then 0
  else
    let kellyRaw := winProb - (1 - winProb) / winLossRat
    let kellyAdj := kellyRaw * kellyFraction
    let kellyClamped := max (-(1/4)) (min (1/4) kellyAdj)
    let cash := account.cash
    let portfolioValue := account.portfolioValue.getD cash
    if cash ≤ 0 then 0
    else
      let usd := kellyClamped * portfolioValue
      let usdCapped := min usd cash
      if usdCapped < 100 then 0 else usdCapped

/-! ## Worker message handling (src/fdp/core/orchestrator.py) -/

/-- How the bounded 120s processing of one dequeued work item ended:
`process_ticker_safe` returned a dict with status "success", it returned
any other status, the `asyncio.timeout(120)` fired, or an exception with
the given message escaped. -/
inductive WorkOutcome where
  | success
  | resultFailed
  | timedOut
  | raised (reason : String)
deriving Repr, DecidableEq

/-- The externally visible effects the worker applies to one dequeued
message: the dead-letter record appended to `fdp:failed_ticker` (with its
reason tag) if any, whether `xack` was issued, and which counter was
incremented. -/
structure WorkerEffects where
  deadLetterReason : Option String
  acked : Bool
  processedInc : Bool
  failedInc : Bool
deriving Repr, DecidableEq

/-- Per-message effect of `FinDashProOrchestrator.worker` (orchestrator.py
lines 256-277).  In the try block a success or a non-success result both
reach the `xack`; the `asyncio.TimeoutError` handler and the generic
exception handler append a dead-letter record tagged "timeout" or
`str(e)` respectively — and neither handler issues an `xack`. -/
def FinDashProOrchestrator.handleWorkItem : WorkOutcome → WorkerEffects
  | .success => ⟨none, true, true, false⟩
  | .resultFailed => ⟨none, true, false, true⟩
  | .timedOut => ⟨some ("timeout"), false, false, false⟩
  | .raised reason => ⟨some reason, false, false, false⟩

/-! ## Helper lemmas -/

lemma callFailSeq_append (cfg : CircuitConfig) (st : CircuitState) (xs ys : List ℚ) :
    callFailSeq cfg st (xs ++ ys) = callFailSeq cfg (callFailSeq cfg st xs) ys := by
  induction xs generalizing st with
  | nil => rfl
  | cons t rest ih => simp [callFailSeq, ih]

/-- Failing calls from a closed state stay closed and count failures while
the threshold is not reached. -/
lemma callFailSeq_closed (cfg : CircuitConfig) (ts : List ℚ) :
    ∀ st : CircuitState, st.state = .closed →
      st.failures + ts.length < cfg.failureThreshold →
      (callFailSeq cfg st ts).state = .closed ∧
      (callFailSeq cfg st ts).failures = st.failures + ts.length := by
  induction ts with
  | nil =>
      intro st hst _
      exact ⟨by simpa [callFailSeq] using hst, by simp [callFailSeq]⟩
  | cons t rest ih =>
      intro st hst hbound
      simp only [List.length_cons] at hbound
      have hne : ¬ st.state = CircuitPhase.opened := by simp [hst]
      have hlt : ¬ (cfg.failureThreshold ≤ st.failures + 1) := by omega
      have hstep : (MLCircuitBreaker.call cfg st t 0 .fails).2
          = { st with failures := st.failures + 1, lastFailure := t,
                      failureTimes := st.failureTimes ++ [t] } := by
        simp [MLCircuitBreaker.call, hne, hlt]
      have hrec := ih { st with failures := st.failures + 1, lastFailure := t, failureTimes := st.failureTimes ++ [t] } hst (show st.failures + 1 + rest.length < cfg.failureThreshold by omega)
      simp only [callFailSeq, hstep]
      refine ⟨hrec.1, ?_⟩
      rw [hrec.2]
      simp only [List.length_cons]
      omega

/-- An acquire call that returned ok at its own start time (no sleep, the
shape of a call with no refill time elapsed inside it) leaves a bucket
with `last_refill = now` and a token count in `[0, adaptive_rate - 1]`;
and if the bucket already existed with `last_refill = now` (no refill time
elapsed since the previous call), the stored count strictly decreases by
at least 1. -/
lemma acquire_noWait (st st2 : RateLimiterState) (now : ℚ) (limit : Int)
    (h : AdaptiveTokenBucketRateLimiter.acquire st now limit = (.ok, st2, now)) :
    ∃ b2 : Bucket, st2.bucket = some b2 ∧ b2.lastRefill = now ∧ 0 ≤ b2.tokens ∧
      b2.tokens ≤ (calculateAdaptiveRate st.adaptiveMode st.perfLatencies limit : ℚ) - 1 ∧
      ∀ b : Bucket, st.bucket = some b → b.lastRefill = now →
        b2.tokens ≤ b.tokens - 1 := by
  simp only [AdaptiveTokenBucketRateLimiter.acquire] at h
  by_cases hbud : (!checkBudgetAtomic st) = true
  · rw [if_pos hbud] at h
    simp at h
  · rw [if_neg hbud] at h
    cases hbk : st.bucket with
    | none =>
        simp only [hbk] at h
        set rate := calculateAdaptiveRate st.adaptiveMode st.perfLatencies limit with hrate
        by_cases hlow : min (rate : ℚ) ((limit : ℚ) + (now - now) / 60 * (rate : ℚ)) < 1
        · rw [if_pos hlow] at h
          by_cases hz : rate = 0
          · rw [if_pos hz] at h; simp at h
          · rw [if_neg hz] at h
            have hw := congrArg (fun p : AcquireOutcome × RateLimiterState × ℚ => p.2.2) h
            simp only at hw
            have hwz : (1 - min (rate : ℚ) ((limit : ℚ) + (now - now) / 60 * (rate : ℚ))) / (rate : ℚ) * 60 = 0 := by
              linarith [hw]
            have : (1 - min (rate : ℚ) ((limit : ℚ) + (now - now) / 60 * (rate : ℚ))) / (rate : ℚ) ≠ 0 :=
              div_ne_zero (by linarith) (by exact_mod_cast hz)
            exact absurd hwz (by intro hc; exact this (by linarith))
        · rw [if_neg hlow] at h
          push_neg at hlow
          have hst2 := congrArg (fun p : AcquireOutcome × RateLimiterState × ℚ => p.2.1) h
          simp only at hst2
          refine ⟨⟨min (rate : ℚ) ((limit : ℚ) + (now - now) / 60 * (rate : ℚ)) - 1, now⟩, ?_, rfl, by linarith, ?_, ?_⟩
          · rw [← hst2]
          · have := min_le_left (rate : ℚ) ((limit : ℚ) + (now - now) / 60 * (rate : ℚ))
            simp only
            linarith
          · intro b hb _
            simp [hbk] at hb
    | some b0 =>
        simp only [hbk] at h
        set rate := calculateAdaptiveRate st.adaptiveMode st.perfLatencies limit with hrate
        set L : ℚ := if b0.lastRefill = 0 then now else b0.lastRefill with hL
        by_cases hlow : min (rate : ℚ) (b0.tokens + (now - L) / 60 * (rate : ℚ)) < 1
        · rw [if_pos hlow] at h
          by_cases hz : rate = 0
          · rw [if_pos hz] at h; simp at h
          · rw [if_neg hz] at h
            have hw := congrArg (fun p : AcquireOutcome × RateLimiterState × ℚ => p.2.2) h
            simp only at hw
            have : (1 - min (rate : ℚ) (b0.tokens + (now - L) / 60 * (rate : ℚ))) / (rate : ℚ) ≠ 0 :=
              div_ne_zero (by linarith) (by exact_mod_cast hz)
            exact absurd (by linarith [hw] :
              (1 - min (rate : ℚ) (b0.tokens + (now - L) / 60 * (rate : ℚ))) / (rate : ℚ) * 60 = 0)
              (by intro hc; exact this (by linarith))
        · rw [if_neg hlow] at h
          push_neg at hlow
          have hst2 := congrArg (fun p : AcquireOutcome × RateLimiterState × ℚ => p.2.1) h
          simp only at hst2
          refine ⟨⟨min (rate : ℚ) (b0.tokens + (now - L) / 60 * (rate : ℚ)) - 1, now⟩, ?_, rfl, by linarith, ?_, ?_⟩
          · rw [← hst2]
          · have := min_le_left (rate : ℚ) (b0.tokens + (now - L) / 60 * (rate : ℚ))
            simp only
            linarith
          · intro b hb hbnow
            have hbeq : b0 = b := Option.some.inj hb
            rw [← hbeq] at hbnow ⊢
            have hLnow : L = now := by
              rw [hL]
              by_cases hz0 : b0.lastRefill = 0
              · rw [if_pos hz0]
              · rw [if_neg hz0, hbnow]
            simp only
            rw [hLnow]
            simp only [sub_self, zero_div, zero_mul, add_zero]
            have hmr := min_le_right (rate : ℚ) b0.tokens
            linarith

/-! ## Claim theorems -/

/-- Claim C1, counterexample: on a fresh paper account (cash 100000, no
key in redis), placing the buy 10 AAPL at limit 150 order with idempotency
key "k1" twice returns two distinct order ids and debits cash twice, down
to 97000 — not the same order id and not a single 1500 debit.  The claim
that a repeated place_order with a previously accepted key returns the
first order id and leaves cash unchanged is false: place_order never
records the key it checks. -/
theorem c1_counterexample :
    (PaperBrokerAdapter.place_order ⟨100000, [], [], []⟩
        ⟨"AAPL", "buy", 10, "limit", 150, "k1"⟩ 1).1 = .ok ("paper_AAPL_1") ∧
    (PaperBrokerAdapter.place_order
        (PaperBrokerAdapter.place_order ⟨100000, [], [], []⟩
          ⟨"AAPL", "buy", 10, "limit", 150, "k1"⟩ 1).2
        ⟨"AAPL", "buy", 10, "limit", 150, "k1"⟩ 2).1 = .ok ("paper_AAPL_2") ∧
    PlaceOrderResult.ok ("paper_AAPL_2") ≠ PlaceOrderResult.ok ("paper_AAPL_1") ∧
    (PaperBrokerAdapter.place_order
        (PaperBrokerAdapter.place_order ⟨100000, [], [], []⟩
          ⟨"AAPL", "buy", 10, "limit", 150, "k1"⟩ 1).2
        ⟨"AAPL", "buy", 10, "limit", 150, "k1"⟩ 2).2.cash = 97000 ∧
    (97000 : ℚ) ≠ 100000 - 1500 := by
  refine ⟨?_, ?_, by decide, ?_, by norm_num⟩ <;>
    norm_num +decide [PaperBrokerAdapter.place_order, alistInsert]

/-- Claim C1, amended: place_order never records the idempotency key it
checks — `redisKeys` is unchanged by every call — so a second call with
the same key re-executes the order and cash is debited a second time
(shown for two affordable buys); only when the caller has itself stored
the key in redis does place_order short-circuit, and then it returns the
constant string "duplicate_suppressed", not the original order id, leaving
the whole broker state unchanged. -/
theorem c1_idempotency_amended (st : PaperBrokerState) (o : EnhancedOrder)
    (t1 t2 : Int)
    (hkey : o.idempotencyKey ∉ st.redisKeys) (hbuy : o.action = "buy")
    (hcost : 0 ≤ o.quantity * (if o.limitPrice = 0 then 100 else o.limitPrice))
    (haff : 2 * (o.quantity * (if o.limitPrice = 0 then 100 else o.limitPrice)) ≤ st.cash) :
    (∀ s2 : PaperBrokerState, ∀ o2 : EnhancedOrder, ∀ t : Int,
        (PaperBrokerAdapter.place_order s2 o2 t).2.redisKeys = s2.redisKeys) ∧
    (PaperBrokerAdapter.place_order
        (PaperBrokerAdapter.place_order st o t1).2 o t2).2.cash
      = st.cash - 2 * (o.quantity * (if o.limitPrice = 0 then 100 else o.limitPrice)) ∧
    (∀ s2 : PaperBrokerState, ∀ o2 : EnhancedOrder, ∀ t : Int,
        o2.idempotencyKey ≠ "" → o2.idempotencyKey ∈ s2.redisKeys →
        PaperBrokerAdapter.place_order s2 o2 t = (.ok ("duplicate_suppressed"), s2)) := by
  refine ⟨?_, ?_, ?_⟩
  · intro s2 o2 t
    simp only [PaperBrokerAdapter.place_order]
    split_ifs <;> rfl
  · have hnk : ¬ (o.idempotencyKey ≠ "" ∧ o.idempotencyKey ∈ st.redisKeys) := by
      intro hc; exact hkey hc.2
    have hstep1 : (PaperBrokerAdapter.place_order st o t1).2
        = { st with
            cash := st.cash - o.quantity * (if o.limitPrice = 0 then 100 else o.limitPrice),
            positions := alistInsert st.positions o.symbol
              ⟨o.quantity, if o.limitPrice = 0 then 100 else o.limitPrice,
               o.quantity * (if o.limitPrice = 0 then 100 else o.limitPrice)⟩,
            orders := ("paper_" ++ o.symbol ++ "_" ++ toString t1, o) :: st.orders } := by
      unfold PaperBrokerAdapter.place_order
      rw [if_neg hnk]
      have hno : ¬ (o.action = "buy" ∧
          o.quantity * (if o.limitPrice = 0 then 100 else o.limitPrice) > st.cash) := by
        intro hc; linarith [hc.2]
      rw [if_neg hno, if_pos hbuy]
    rw [hstep1]
    have hnk2 : ¬ (o.idempotencyKey ≠ "" ∧ o.idempotencyKey ∈ st.redisKeys) := hnk
    unfold PaperBrokerAdapter.place_order
    rw [if_neg hnk2]
    have hno2 : ¬ (o.action = "buy" ∧
        o.quantity * (if o.limitPrice = 0 then 100 else o.limitPrice)
          > st.cash - o.quantity * (if o.limitPrice = 0 then 100 else o.limitPrice)) := by
      intro hc; linarith [hc.2]
    rw [if_neg hno2, if_pos hbuy]
    simp only
    ring
  · intro s2 o2 t hk1 hk2
    unfold PaperBrokerAdapter.place_order
    rw [if_pos ⟨hk1, hk2⟩]

/-- Claim C1, witness for the amended theorem at the spec's own example:
buy 10 at 150 with key "k1" on a 100000 paper account, placed twice. -/
theorem c1_witness :
    ((("k1" : String) ∉ ([] : List String)) ∧
      (2 : ℚ) * ((10 : ℚ) * 150) ≤ 100000) ∧
    (PaperBrokerAdapter.place_order
        (PaperBrokerAdapter.place_order ⟨100000, [], [], []⟩
          ⟨"AAPL", "buy", 10, "limit", 150, "k1"⟩ 3).2
        ⟨"AAPL", "buy", 10, "limit", 150, "k1"⟩ 4).2.cash
      = 100000 - 2 * ((10 : ℚ) * 150) := by
  refine ⟨⟨by decide, by norm_num⟩, ?_⟩
  have h := (c1_idempotency_amended ⟨100000, [], [], []⟩
      ⟨"AAPL", "buy", 10, "limit", 150, "k1"⟩ 3 4
      (by decide) rfl (by norm_num) (by norm_num)).2.1
  simpa using h

/-- Claim C2, counterexample: on a paper account holding no position at
all, a sell of 5 XYZ at limit 100 is not rejected — it fills with order id
"paper_XYZ_7" and credits cash from 100000 to 100500.  The claim that
place_order rejects a sell whose quantity exceeds the held quantity
(including a symbol not held) is false: the source has no sell-side check
whatsoever. -/
theorem c2_counterexample :
    (PaperBrokerAdapter.place_order ⟨100000, [], [], []⟩
        ⟨"XYZ", "sell", 5, "limit", 100, ""⟩ 7).1 = .ok ("paper_XYZ_7") ∧
    (PaperBrokerAdapter.place_order ⟨100000, [], [], []⟩
        ⟨"XYZ", "sell", 5, "limit", 100, ""⟩ 7).2.cash = 100500 ∧
    (100500 : ℚ) ≠ 100000 := by
  refine ⟨?_, ?_, by norm_num⟩ <;>
    norm_num +decide [PaperBrokerAdapter.place_order, alistErase]

/-- Claim C2, amended: a buy whose cost (quantity times the limit price,
or the mock price 100 when the limit price is 0) exceeds available cash
raises Insufficient funds and leaves cash and positions unchanged, but a
sell is never validated: any order whose action is not "buy" — whatever
the held quantity, including an unheld symbol — fills, credits quantity
times price to cash, and removes the symbol's position entirely. -/
theorem c2_order_validation_amended (st : PaperBrokerState) (o : EnhancedOrder) (t : Int)
    (hnd : ¬ (o.idempotencyKey ≠ "" ∧ o.idempotencyKey ∈ st.redisKeys)) :
    (o.action = "buy" →
      o.quantity * (if o.limitPrice = 0 then 100 else o.limitPrice) > st.cash →
      PaperBrokerAdapter.place_order st o t = (.insufficientFunds, st)) ∧
    (o.action ≠ "buy" →
      (PaperBrokerAdapter.place_order st o t).1
          = .ok ("paper_" ++ o.symbol ++ "_" ++ toString t) ∧
      (PaperBrokerAdapter.place_order st o t).2.cash
          = st.cash + o.quantity * (if o.limitPrice = 0 then 100 else o.limitPrice) ∧
      (PaperBrokerAdapter.place_order st o t).2.positions
          = alistErase st.positions o.symbol) := by
  constructor
  · intro hbuy hover
    unfold PaperBrokerAdapter.place_order
    rw [if_neg hnd, if_pos ⟨hbuy, hover⟩]
  · intro hsell
    have hno : ¬ (o.action = "buy" ∧
        o.quantity * (if o.limitPrice = 0 then 100 else o.limitPrice) > st.cash) := by
      intro hc; exact hsell hc.1
    refine ⟨?_, ?_, ?_⟩ <;>
      · unfold PaperBrokerAdapter.place_order
        rw [if_neg hnd, if_neg hno, if_neg hsell]

/-- Claim C2, witness for the amended theorem: a buy of 10 at 150 on a
cash-1000 account is rejected with state unchanged, and a sell of 5 XYZ at
100 on an account holding nothing fills and credits 500. -/
theorem c2_witness :
    (¬ (("" : String) ≠ "" ∧ ("" : String) ∈ ([] : List String)) ∧
      ("buy" : String) = "buy" ∧ (10 : ℚ) * 150 > 1000 ∧ ("sell" : String) ≠ "buy") ∧
    PaperBrokerAdapter.place_order ⟨1000, [], [], []⟩
        ⟨"AAPL", "buy", 10, "limit", 150, ""⟩ 9 = (.insufficientFunds, ⟨1000, [], [], []⟩) ∧
    (PaperBrokerAdapter.place_order ⟨100000, [], [], []⟩
        ⟨"XYZ", "sell", 5, "limit", 100, ""⟩ 7).2.cash = 100000 + (5 : ℚ) * 100 := by
  refine ⟨⟨by decide, rfl, by norm_num, by decide⟩, ?_, ?_⟩
  · exact (c2_order_validation_amended ⟨1000, [], [], []⟩
      ⟨"AAPL", "buy", 10, "limit", 150, ""⟩ 9 (by decide)).1 rfl (by norm_num)
  · have h := ((c2_order_validation_amended ⟨100000, [], [], []⟩
      ⟨"XYZ", "sell", 5, "limit", 100, ""⟩ 7 (by decide)).2 (by decide)).2.1
    simpa using h

/-- Claim C4: whenever daily_spent has reached the configured daily cap,
the atomic budget check returns false, a single acquire call returns
BudgetExceededError at once with the entire limiter state — token bucket
included — unchanged (so no bucket is read or debited), and every call of
any subsequent sequence of acquires does the same, so no further provider
call is attempted while the counter stays at or above the cap. -/
theorem c4_budget_gate (st : RateLimiterState) (hspent : st.budget ≤ st.dailySpent) :
    checkBudgetAtomic st = false ∧
    (∀ now : ℚ, ∀ limit : Int,
      AdaptiveTokenBucketRateLimiter.acquire st now limit = (.budgetExceeded, st, now)) ∧
    (∀ calls : List (ℚ × Int),
      acquireMany st calls = (calls.map fun _ => .budgetExceeded, st)) := by
  have hchk : checkBudgetAtomic st = false := by
    simp only [checkBudgetAtomic, decide_eq_false_iff_not, not_lt]
    exact hspent
  have hone : ∀ now : ℚ, ∀ limit : Int,
      AdaptiveTokenBucketRateLimiter.acquire st now limit = (.budgetExceeded, st, now) := by
    intro now limit
    simp only [AdaptiveTokenBucketRateLimiter.acquire, hchk, Bool.not_false, if_pos]
  refine ⟨hchk, hone, ?_⟩
  intro calls
  induction calls with
  | nil => rfl
  | cons c rest ih =>
      obtain ⟨now, limit⟩ := c
      simp only [acquireMany, hone now limit, ih, List.map_cons]

/-- Claim C4, witness: a limiter with daily_spent = 5 at the default cap 5
fails the budget check, and a two-call sequence raises BudgetExceededError
both times with the state unchanged. -/
theorem c4_witness :
    ((⟨none, 5, 5, true, []⟩ : RateLimiterState).budget
      ≤ (⟨none, 5, 5, true, []⟩ : RateLimiterState).dailySpent) ∧
    checkBudgetAtomic ⟨none, 5, 5, true, []⟩ = false ∧
    acquireMany ⟨none, 5, 5, true, []⟩ [(1, 10), (2, 3)]
      = ([.budgetExceeded, .budgetExceeded], ⟨none, 5, 5, true, []⟩) := by
  refine ⟨by norm_num, ?_, ?_⟩
  · exact (c4_budget_gate ⟨none, 5, 5, true, []⟩ (by norm_num)).1
  · exact (c4_budget_gate ⟨none, 5, 5, true, []⟩ (by norm_num)).2.2 [(1, 10), (2, 3)]

/-- Claim C10: an acquire with limit_per_min = 0 against a key with no
bucket state, with fewer than 5 recorded performance samples and the
budget gate still open, reaches the wait computation with
adaptive_rate = 0 and raises an unguarded ZeroDivisionError from
`(1.0 - new_tokens) / adaptive_rate`; the input is reachable at the public
interface because process_ticker_safe issues exactly this call (limit
argument the literal 0) for every ticker. -/
theorem c10_acquire_zero_division (st : RateLimiterState) (now : ℚ)
    (hb : st.bucket = none) (hp : st.perfLatencies.length < 5)
    (hbud : st.dailySpent < st.budget) :
    FinDashProOrchestrator.processTickerAcquire st now = (.zeroDivision, st, now) := by
  have hchk : checkBudgetAtomic st = true := by
    simp only [checkBudgetAtomic, decide_eq_true_eq]
    exact hbud
  have hrate : calculateAdaptiveRate st.adaptiveMode st.perfLatencies 0 = 0 := by
    unfold calculateAdaptiveRate
    split_ifs <;> norm_num
  simp only [FinDashProOrchestrator.processTickerAcquire,
    AdaptiveTokenBucketRateLimiter.acquire, hchk, Bool.not_true, hb, hrate]
  norm_num

/-- Claim C10, witness: the concrete fresh limiter (no bucket, nothing
spent, default cap 5, empty performance window) at time 50. -/
theorem c10_witness :
    ((⟨none, 0, 5, true, []⟩ : RateLimiterState).bucket = none ∧
      (⟨none, 0, 5, true, []⟩ : RateLimiterState).perfLatencies.length < 5 ∧
      (⟨none, 0, 5, true, []⟩ : RateLimiterState).dailySpent
        < (⟨none, 0, 5, true, []⟩ : RateLimiterState).budget) ∧
    FinDashProOrchestrator.processTickerAcquire ⟨none, 0, 5, true, []⟩ 50
      = (.zeroDivision, ⟨none, 0, 5, true, []⟩, 50) :=
  ⟨⟨rfl, by norm_num, by norm_num⟩,
    c10_acquire_zero_division ⟨none, 0, 5, true, []⟩ 50 rfl (by norm_num) (by norm_num)⟩

/-- Acquire only rewrites the bucket hash: the adaptive-mode flag and the
performance window are untouched. -/
lemma acquire_preserves (st : RateLimiterState) (now : ℚ) (limit : Int) :
    (AdaptiveTokenBucketRateLimiter.acquire st now limit).2.1.adaptiveMode = st.adaptiveMode ∧
    (AdaptiveTokenBucketRateLimiter.acquire st now limit).2.1.perfLatencies = st.perfLatencies := by
  cases hbk : st.bucket with
  | none =>
      simp only [AdaptiveTokenBucketRateLimiter.acquire, hbk]
      split_ifs <;> simp
  | some b =>
      simp only [AdaptiveTokenBucketRateLimiter.acquire, hbk]
      split_ifs <;> simp

/-- Along any same-timestamp acquire sequence the adaptive-mode flag and
performance window stay those of the initial state. -/
lemma acquireSeq_preserves (st : RateLimiterState) (now : ℚ) (limit : Int) :
    ∀ n : Nat, (acquireSeq st now limit n).adaptiveMode = st.adaptiveMode ∧
      (acquireSeq st now limit n).perfLatencies = st.perfLatencies := by
  intro n
  induction n with
  | zero => exact ⟨rfl, rfl⟩
  | succ k ih =>
      have hp := acquire_preserves (acquireSeq st now limit k) now limit
      exact ⟨by rw [acquireSeq, hp.1, ih.1], by rw [acquireSeq, hp.2, ih.2]⟩

/-- Claim C3, counterexample: from a fresh bucket with limit 2 per minute,
two acquires at t = 100 leave 0 tokens, an acquire at t = 145 refills 1.5
tokens and stores 0.5, and a fourth acquire at t = 145 finds 0.5 < 1,
sleeps 15 seconds, recomputes `min(1.0, elapsed * rate)` from the elapsed
time alone — discarding the half token — and stores 0.5 - 1 = -0.5.  This
acquire returns ok having waited for a refill, yet the stored token count
is negative, refuting the claimed invariant 0 ≤ tokens after every acquire
including one that waited. -/
theorem c3_counterexample :
    (AdaptiveTokenBucketRateLimiter.acquire
        (AdaptiveTokenBucketRateLimiter.acquire
          (AdaptiveTokenBucketRateLimiter.acquire
            (AdaptiveTokenBucketRateLimiter.acquire ⟨none, 0, 5, true, []⟩ 100 2).2.1
            100 2).2.1
          145 2).2.1
        145 2)
      = (.ok, ⟨some ⟨-(1/2), 160⟩, 0, 5, true, []⟩, 160) ∧
    ¬ (0 ≤ (-(1/2) : ℚ)) := by
  constructor
  · norm_num +decide [AdaptiveTokenBucketRateLimiter.acquire, checkBudgetAtomic,
      calculateAdaptiveRate]
  · norm_num

/-- Claim C3, amended: for every sequence of acquire calls against one
bucket issued at a single timestamp in which every call returns ok without
sleeping (no refill time elapses anywhere), the stored token count after
each call is non-negative, bounded by adaptive_rate - 1 (the bucket cap in
this source is the adaptive rate), and strictly decreases call over call;
the original claim's parenthetical — that the invariant 0 ≤ tokens also
holds after an acquire that waited for a refill — is dropped, being false
(see the counterexample): a waiting acquire can store a negative count. -/
theorem c3_token_monotonicity_amended (st : RateLimiterState) (now : ℚ)
    (limit : Int) (n : Nat)
    (hseq : ∀ k, k < n →
      AdaptiveTokenBucketRateLimiter.acquire (acquireSeq st now limit k) now limit
        = (.ok, acquireSeq st now limit (k + 1), now)) :
    (∀ k, 1 ≤ k → k ≤ n →
      0 ≤ bucketTokens (acquireSeq st now limit k) ∧
      bucketTokens (acquireSeq st now limit k)
        ≤ (calculateAdaptiveRate st.adaptiveMode st.perfLatencies limit : ℚ) - 1) ∧
    (∀ k, 1 ≤ k → k + 1 ≤ n →
      bucketTokens (acquireSeq st now limit (k + 1))
        ≤ bucketTokens (acquireSeq st now limit k) - 1) := by
  have hbkt : ∀ k, k < n → ∃ b2 : Bucket,
      (acquireSeq st now limit (k + 1)).bucket = some b2 ∧ b2.lastRefill = now ∧
      0 ≤ b2.tokens ∧
      b2.tokens ≤ (calculateAdaptiveRate st.adaptiveMode st.perfLatencies limit : ℚ) - 1 ∧
      ∀ b : Bucket, (acquireSeq st now limit k).bucket = some b → b.lastRefill = now →
        b2.tokens ≤ b.tokens - 1 := by
    intro k hk
    have h := acquire_noWait (acquireSeq st now limit k) (acquireSeq st now limit (k + 1))
      now limit (hseq k hk)
    obtain ⟨b2, hb2, hlr, hnn, hcap, hmono⟩ := h
    refine ⟨b2, hb2, hlr, hnn, ?_, hmono⟩
    rw [(acquireSeq_preserves st now limit k).1, (acquireSeq_preserves st now limit k).2] at hcap
    exact hcap
  constructor
  · intro k h1 hn
    obtain ⟨j, rfl⟩ : ∃ j, k = j + 1 := ⟨k - 1, by omega⟩
    obtain ⟨b2, hb2, _, hnn, hcap, _⟩ := hbkt j (by omega)
    rw [bucketTokens, hb2]
    exact ⟨hnn, hcap⟩
  · intro k h1 hn
    obtain ⟨j, rfl⟩ : ∃ j, k = j + 1 := ⟨k - 1, by omega⟩
    obtain ⟨b1, hb1, hlr1, _, _, _⟩ := hbkt j (by omega)
    obtain ⟨b2, hb2, _, _, _, hmono⟩ := hbkt (j + 1) (by omega)
    rw [bucketTokens, hb2, bucketTokens, hb1]
    exact hmono b1 hb1 hlr1

/-- Claim C3, witness for the amended theorem: a fresh bucket with limit 5
per minute, two acquires at t = 100, neither sleeping: tokens go 4 then 3,
non-negative and decreasing. -/
theorem c3_witness :
    (AdaptiveTokenBucketRateLimiter.acquire
        (acquireSeq ⟨none, 0, 5, true, []⟩ 100 5 0) 100 5
        = (.ok, acquireSeq ⟨none, 0, 5, true, []⟩ 100 5 1, 100) ∧
      AdaptiveTokenBucketRateLimiter.acquire
        (acquireSeq ⟨none, 0, 5, true, []⟩ 100 5 1) 100 5
        = (.ok, acquireSeq ⟨none, 0, 5, true, []⟩ 100 5 2, 100)) ∧
    (0 ≤ bucketTokens (acquireSeq ⟨none, 0, 5, true, []⟩ 100 5 2) ∧
      bucketTokens (acquireSeq ⟨none, 0, 5, true, []⟩ 100 5 2)
        ≤ bucketTokens (acquireSeq ⟨none, 0, 5, true, []⟩ 100 5 1) - 1) := by
  have hseq : ∀ k, k < 2 →
      AdaptiveTokenBucketRateLimiter.acquire (acquireSeq ⟨none, 0, 5, true, []⟩ 100 5 k) 100 5
        = (.ok, acquireSeq ⟨none, 0, 5, true, []⟩ 100 5 (k + 1), 100) := by
    intro k hk
    interval_cases k <;>
      norm_num +decide [acquireSeq, AdaptiveTokenBucketRateLimiter.acquire,
        checkBudgetAtomic, calculateAdaptiveRate]
  refine ⟨⟨hseq 0 (by omega), hseq 1 (by omega)⟩, ?_, ?_⟩
  · exact ((c3_token_monotonicity_amended ⟨none, 0, 5, true, []⟩ 100 5 2 hseq).1
      2 (by omega) (by omega)).1
  · exact (c3_token_monotonicity_amended ⟨none, 0, 5, true, []⟩ 100 5 2 hseq).2
      1 (by omega) (by omega)

/-- Claim C5: starting from the initial per-provider state, after
failure_threshold consecutive failing calls (at any timestamps) the
circuit state is open, and any further call made before the recovery
timeout has strictly elapsed returns CircuitOpenError with the state
unchanged and with a result independent of what the wrapped function
would have done — i.e. the function is not invoked.  The adaptive
timeout's random draw is universally quantified, so the fast-fail holds
for every sample. -/
theorem c5_circuit_fast_fail (cfg : CircuitConfig) (ts : List ℚ)
    (hth : 1 ≤ cfg.failureThreshold) (hlen : ts.length = cfg.failureThreshold) :
    (callFailSeq cfg .init ts).state = .opened ∧
    (∀ now sample : ℚ, ∀ outcome : CallOutcome,
      ¬ (now - (callFailSeq cfg .init ts).lastFailure
          > calculateMlRecoveryTimeout cfg (callFailSeq cfg .init ts).failureTimes sample) →
      MLCircuitBreaker.call cfg (callFailSeq cfg .init ts) now sample outcome
        = (.circuitOpenError, callFailSeq cfg .init ts)) := by
  have hopen : (callFailSeq cfg .init ts).state = .opened := by
    have hne : ts ≠ [] := by
      intro hc; rw [hc] at hlen; simp at hlen; omega
    have hsplit : ts.dropLast ++ [ts.getLast hne] = ts := List.dropLast_append_getLast hne
    rw [← hsplit, callFailSeq_append]
    have hdl : ts.dropLast.length + 1 = cfg.failureThreshold := by
      rw [List.length_dropLast] at *
      omega
    have hclosed := callFailSeq_closed cfg ts.dropLast .init rfl
      (by simp only [CircuitState.init]; omega)
    set stm := callFailSeq cfg .init ts.dropLast with hstm
    have hnotopen : ¬ stm.state = CircuitPhase.opened := by
      rw [hclosed.1]; intro hc; cases hc
    have hge : cfg.failureThreshold ≤ stm.failures + 1 := by
      have := hclosed.2
      simp only [CircuitState.init] at this
      omega
    simp [callFailSeq, MLCircuitBreaker.call, hnotopen, hge]
  refine ⟨hopen, ?_⟩
  intro now sample outcome hlt
  unfold MLCircuitBreaker.call
  rw [if_pos ⟨hopen, hlt⟩]

/-- Claim C5, witness at the spec's own example: threshold 3, three
induced failures at t = 0, 1, 2 open the circuit; a fourth call at t = 10
(before the adaptive timeout, here 300, has elapsed) raises
CircuitOpenError both for a failing and for a succeeding wrapped function,
with the state unchanged. -/
theorem c5_witness :
    (1 ≤ (⟨3, 300⟩ : CircuitConfig).failureThreshold ∧
      ([0, 1, 2] : List ℚ).length = (⟨3, 300⟩ : CircuitConfig).failureThreshold) ∧
    (callFailSeq ⟨3, 300⟩ .init [0, 1, 2]).state = .opened ∧
    MLCircuitBreaker.call ⟨3, 300⟩ (callFailSeq ⟨3, 300⟩ .init [0, 1, 2]) 10 0 .fails
      = (.circuitOpenError, callFailSeq ⟨3, 300⟩ .init [0, 1, 2]) ∧
    MLCircuitBreaker.call ⟨3, 300⟩ (callFailSeq ⟨3, 300⟩ .init [0, 1, 2]) 10 0 .succeeds
      = (.circuitOpenError, callFailSeq ⟨3, 300⟩ .init [0, 1, 2]) := by
  have h := c5_circuit_fast_fail ⟨3, 300⟩ [0, 1, 2] (by norm_num) (by norm_num)
  have hfast : ∀ outcome : CallOutcome,
      MLCircuitBreaker.call ⟨3, 300⟩ (callFailSeq ⟨3, 300⟩ .init [0, 1, 2]) 10 0 outcome
        = (.circuitOpenError, callFailSeq ⟨3, 300⟩ .init [0, 1, 2]) := by
    intro outcome
    refine h.2 10 0 outcome ?_
    norm_num +decide [callFailSeq, MLCircuitBreaker.call, CircuitState.init,
      calculateMlRecoveryTimeout, adjacentDiffs]
  exact ⟨⟨by norm_num, by norm_num⟩, h.1, hfast .fails, hfast .succeeds⟩

/-- Claim C6, counterexample: threshold 3, base timeout 300; failures at
t = 0, 1, 2 open the circuit; at t = 1000 the timeout (300) has elapsed,
the call transitions to half-open and its wrapped function succeeds,
resetting consecutive_failures to 0; the next call at t = 1001 fails — and
the circuit stays half-open (1 < 3 failures), it does not reopen.  The
claim that from every reachable half-open state a single failure
immediately returns the circuit to open is false once an intervening
half-open success has reset the failure counter. -/
theorem c6_counterexample :
    (callFailSeq ⟨3, 300⟩ .init [0, 1, 2]).state = CircuitPhase.opened ∧
    ((MLCircuitBreaker.call ⟨3, 300⟩ (callFailSeq ⟨3, 300⟩ .init [0, 1, 2])
        1000 0 .succeeds).2).state = CircuitPhase.halfOpen ∧
    ((MLCircuitBreaker.call ⟨3, 300⟩
        (MLCircuitBreaker.call ⟨3, 300⟩ (callFailSeq ⟨3, 300⟩ .init [0, 1, 2])
          1000 0 .succeeds).2
        1001 0 .fails).2).state = CircuitPhase.halfOpen ∧
    CircuitPhase.halfOpen ≠ CircuitPhase.opened := by
  refine ⟨?_, ?_, ?_, by decide⟩ <;>
    norm_num +decide [callFailSeq, MLCircuitBreaker.call, CircuitState.init,
      calculateMlRecoveryTimeout, adjacentDiffs]

/-- Claim C6, amended: from a half-open state a failing call returns the
circuit to open exactly when the incremented consecutive-failure counter
reaches the failure threshold, and stays half-open otherwise.  A half-open
state entered directly from open still carries failures at or above the
threshold, so there a single failure does reopen; but after a successful
half-open call has reset failures to 0, a single failure leaves the
circuit half-open whenever the threshold exceeds 1. -/
theorem c6_half_open_failure_amended (cfg : CircuitConfig) (st : CircuitState)
    (now sample : ℚ) (hho : st.state = .halfOpen) :
    ((MLCircuitBreaker.call cfg st now sample .fails).2.state = .opened
      ↔ cfg.failureThreshold ≤ st.failures + 1) ∧
    ((MLCircuitBreaker.call cfg st now sample .fails).2.state = .halfOpen
      ↔ st.failures + 1 < cfg.failureThreshold) := by
  have hnotopen : ¬ st.state = CircuitPhase.opened := by
    rw [hho]; intro hc; cases hc
  by_cases hth : st.failures + 1 ≥ cfg.failureThreshold
  · have h1 : MLCircuitBreaker.call cfg st now sample .fails
        = (.raised, { st with failures := st.failures + 1, lastFailure := now, state := .opened, failureTimes := st.failureTimes ++ [now] }) := by
      simp [MLCircuitBreaker.call, hnotopen, hth]
    rw [h1]
    constructor
    · exact ⟨fun _ => hth, fun _ => rfl⟩
    · exact ⟨fun hc => absurd (show CircuitPhase.opened = CircuitPhase.halfOpen from hc) (by decide),
        fun hlt => absurd hlt (by omega)⟩
  · have h1 : MLCircuitBreaker.call cfg st now sample .fails
        = (.raised, { st with failures := st.failures + 1, lastFailure := now, failureTimes := st.failureTimes ++ [now] }) := by
      simp [MLCircuitBreaker.call, hnotopen, hth]
    rw [h1]
    constructor
    · exact ⟨fun hc => absurd (show st.state = CircuitPhase.opened from hc) hnotopen,
        fun hle => absurd hle (by omega)⟩
    · exact ⟨fun _ => by omega, fun _ => hho⟩

/-- Claim C6, witness for the amended theorem: in the half-open state with
failures already reset to 0 (threshold 3), a failing call leaves the
circuit half-open. -/
theorem c6_witness :
    ((⟨0, 2, .halfOpen, 0, [0, 1, 2]⟩ : CircuitState).state = .halfOpen ∧
      (⟨0, 2, .halfOpen, 0, [0, 1, 2]⟩ : CircuitState).failures + 1
        < (⟨3, 300⟩ : CircuitConfig).failureThreshold) ∧
    (MLCircuitBreaker.call ⟨3, 300⟩ ⟨0, 2, .halfOpen, 0, [0, 1, 2]⟩
        1001 0 .fails).2.state = .halfOpen :=
  ⟨⟨rfl, by norm_num⟩,
    (c6_half_open_failure_amended ⟨3, 300⟩ ⟨0, 2, .halfOpen, 0, [0, 1, 2]⟩
      1001 0 rfl).2.mpr (by norm_num)⟩

/-- Claim C7, counterexample: with max_position_percent = 2 an order for
50 shares at limit 10 (position value 500) in an environment whose account
value is 1000 breaches the position-fraction limit (500 is 50% of the
account), yet validate_order returns allowed = true with reason "OK": the
source divides by a hard-coded mock portfolio of 100000 — where 500 is
0.5% — and checks neither the open-position count nor the daily realized
loss, so the claimed three-limit validation is false. -/
theorem c7_counterexample :
    RiskManager.validate_order 2 ⟨"AAPL", "buy", 50, "limit", 10, ""⟩
      = ⟨true, "OK"⟩ ∧
    validateOrderSpecModel (2/100) ⟨1000, 0, 10, 0, 2⟩
      ⟨"AAPL", "buy", 50, "limit", 10, ""⟩ = false := by
  constructor <;>
    norm_num +decide [RiskManager.validate_order, validateOrderSpecModel]

/-- Claim C7, amended: validate_order enforces exactly one rule — the
position-size limit, measured against the hard-coded mock portfolio value
100000 rather than the account value: allowed is false iff
quantity × limit_price / 100000 × 100 exceeds max_position_percent, and in
that case the reason names the position-size rule ("Position size exceeds
limit"); the open-position count and the daily realized loss are never
examined (the source's daily-loss check is a TODO and no position-count
check exists). -/
theorem c7_risk_gate_amended (maxPct : ℚ) (o : EnhancedOrder) :
    ((RiskManager.validate_order maxPct o).allowed = false
      ↔ o.quantity * o.limitPrice / 100000 * 100 > maxPct) ∧
    ((RiskManager.validate_order maxPct o).allowed = false →
      (RiskManager.validate_order maxPct o).reason = "Position size exceeds limit") ∧
    ((RiskManager.validate_order maxPct o).allowed = true →
      (RiskManager.validate_order maxPct o).reason = "OK") := by
  simp only [RiskManager.validate_order]
  by_cases h : o.quantity * o.limitPrice / 100000 * 100 > maxPct
  · rw [if_pos h]
    refine ⟨⟨fun _ => h, fun _ => rfl⟩, fun _ => ?_, fun hc => ?_⟩
    · simp [String.intercalate, String.intercalate.go]
    · simp at hc
  · rw [if_neg h]
    exact ⟨⟨fun hc => by simp at hc, fun hc => absurd hc h⟩,
      fun hc => by simp at hc, fun _ => rfl⟩

/-- Claim C8, counterexample: with win_probability 0.95, win_loss_ratio 10
and kelly_fraction 1, the account snapshot with cash 0 and portfolio value
100000 yields a position size of 0, not 0.25 × 100000 = 25000: the sizer
returns 0 on non-positive cash (and likewise caps by cash and suppresses
sizes under 100), so the sized position is not 0.25 × portfolio_value for
every account snapshot. -/
theorem c8_counterexample :
    KellyPositionSizer.calculate_position_size 1 (19/20) 10 ⟨0, some 100000⟩ = 0 ∧
    (0 : ℚ) ≠ 1/4 * 100000 := by
  constructor
  · norm_num [KellyPositionSizer.calculate_position_size]
  · norm_num

/-- Claim C8, amended: for win_probability 0.95, win_loss_ratio 10 and
kelly_fraction 1 the raw Kelly fraction 0.945 is clamped to the 0.25 cap,
and the sized position equals exactly 0.25 × portfolio_value for every
account snapshot in which that amount does not exceed available cash and
reaches the $100 minimum; outside that region the source returns
min(0.25 × portfolio_value, cash), or 0 below the minimum or for
non-positive cash. -/
theorem c8_kelly_clamp_amended (cash pv : ℚ)
    (hmin : 100 ≤ 1/4 * pv) (hcash : 1/4 * pv ≤ cash) :
    KellyPositionSizer.calculate_position_size 1 (19/20) 10 ⟨cash, some pv⟩
      = 1/4 * pv := by
  unfold KellyPositionSizer.calculate_position_size
  have h1 : ¬ ¬ ((0 : ℚ) < 19/20 ∧ (19/20 : ℚ) < 1) := by norm_num
  rw [if_neg h1, if_neg (by norm_num : ¬ (10 : ℚ) ≤ 0)]
  have hclamp : max (-(1/4)) (min (1/4) ((19/20 - (1 - 19/20) / 10) * 1)) = (1/4 : ℚ) := by
    norm_num
  simp only [Option.getD_some]
  rw [hclamp, if_neg (by linarith : ¬ cash ≤ 0)]
  rw [min_eq_left (by linarith : (1/4 : ℚ) * pv ≤ cash)]
  rw [if_neg (by linarith : ¬ (1/4 : ℚ) * pv < 100)]

/-- Claim C8, witness for the amended theorem: cash 100000, portfolio
value 100000 — the sized position is exactly 25000. -/
theorem c8_witness :
    ((100 : ℚ) ≤ 1/4 * 100000 ∧ (1/4 : ℚ) * 100000 ≤ 100000) ∧
    KellyPositionSizer.calculate_position_size 1 (19/20) 10 ⟨100000, some 100000⟩
      = 1/4 * 100000 :=
  ⟨⟨by norm_num, by norm_num⟩,
    c8_kelly_clamp_amended 100000 100000 (by norm_num) (by norm_num)⟩

/-- Claim C9, counterexample: a work item whose processing hits the
120-second timeout is appended to the dead-letter log tagged "timeout" —
but the message is not acknowledged, contradicting the claim that the
worker xacks the message regardless of the failure: both exception
handlers in the worker loop skip the xack, which sits inside the try
block. -/
theorem c9_counterexample :
    (FinDashProOrchestrator.handleWorkItem .timedOut).deadLetterReason = some ("timeout") ∧
    (FinDashProOrchestrator.handleWorkItem .timedOut).acked = false := by
  constructor <;> rfl

/-- Claim C9, amended: a timed-out item is dead-lettered with reason
"timeout" and an item whose processing raised is dead-lettered with the
exception text, but in both cases the message is left unacknowledged on
the stream (available for redelivery); the worker acknowledges only the
items whose processing returned, whether with success or failure status. -/
theorem c9_dead_letter_amended (reason : String) :
    FinDashProOrchestrator.handleWorkItem .timedOut
      = ⟨some ("timeout"), false, false, false⟩ ∧
    FinDashProOrchestrator.handleWorkItem (.raised reason)
      = ⟨some reason, false, false, false⟩ ∧
    (FinDashProOrchestrator.handleWorkItem .success).acked = true ∧
    (FinDashProOrchestrator.handleWorkItem .resultFailed).acked = true :=
  ⟨rfl, rfl, rfl, rfl⟩
